import Mathlib

/-!
Verification development for the codex-cloud task-execution platform.

The control-plane side (cloud/backend/src/routes.rs, models.rs) is embedded
as pure functions over an explicit store state: each route handler becomes a
function returning the response (an `Except` of the error taxonomy in
error.rs) together with the resulting store.  Database timestamps are
modelled as natural numbers counting minutes; each handler takes the clock
reading `now` as an argument (the Rust code reads `Utc::now()`).  Uuid
freshness is modelled by a counter.  The artifact byte store is an external
collaborator and enters as an oracle function.

The worker side (cloud/supervisor/src/main.rs, pool.rs) is embedded the same
way: the snapshot pool becomes a state structure with the queue as a list,
and the authenticated HTTP client becomes a function of the transcript of
network responses.
-/

namespace CodexCloud

/-- Task status domain, from models.rs TaskStatus. -/
inductive TaskStatus where
  | pending
  | claimed
  | running
  | review
  | applied
  deriving DecidableEq, Repr

/-- Attempt status domain, from models.rs AttemptStatus. -/
inductive AttemptStatus where
  | queued
  | running
  | succeeded
  | failed
  deriving DecidableEq, Repr

/-- Task row, from models.rs Task (ids and timestamps as naturals). -/
structure Task where
  id : Nat
  title : String
  description : Option String
  repository_id : Nat
  status : TaskStatus
  assignee_id : Option Nat
  created_by : Nat
  created_at : Nat
  updated_at : Nat
  environment_id : Option String
  deriving DecidableEq, Repr

/-- Attempt row, from models.rs TaskAttempt. -/
structure TaskAttempt where
  id : Nat
  task_id : Nat
  created_by : Nat
  status : AttemptStatus
  diff_artifact_id : Option String
  log_artifact_id : Option String
  created_at : Nat
  updated_at : Nat
  deriving DecidableEq, Repr

/-- Error taxonomy of error.rs AppError (the variants reachable from the
claim/attempt endpoints; `internal` stands for database or storage
failures mapped to 500). -/
inductive AppErr where
  | notFound
  | forbidden
  | conflict
  | badRequest
  | unauthorized
  | internal
  deriving DecidableEq, Repr

/-- Persistent store state: the tasks and task_attempts tables, plus a
counter supplying fresh attempt ids (modelling `Uuid::new_v4`). -/
structure Store where
  tasks : List Task
  attempts : List TaskAttempt
  nextAttemptId : Nat
  deriving DecidableEq, Repr

/-- models.rs claim_expiration: `Utc::now() + Duration::minutes(minutes)`,
with time counted in minutes. -/
def claim_expiration (minutes : Nat) (now : Nat) : Nat :=
  now + minutes

/-- routes.rs fetch_task: `SELECT ... FROM tasks WHERE id = ?`, 404 when
no row matches. -/
def fetch_task (s : Store) (id : Nat) : Except AppErr Task :=
  match s.tasks.find? (fun t => t.id == id) with
  | some t => .ok t
  | none => .error .notFound

/-- routes.rs fetch_attempt: `SELECT ... FROM task_attempts WHERE id = ?`,
404 when no row matches. -/
def fetch_attempt (s : Store) (id : Nat) : Except AppErr TaskAttempt :=
  match s.attempts.find? (fun a => a.id == id) with
  | some a => .ok a
  | none => .error .notFound

/-- A SQL `UPDATE ... WHERE id = ?` on a list of rows: every row carrying
the written row's id is replaced by it. -/
def updateRow {α : Type} (idOf : α → Nat) (xs : List α) (x : α) : List α :=
  xs.map (fun u => if idOf u == idOf x then x else u)

/-- Readback accessor: the task row a later `SELECT` observes. -/
def findTask (s : Store) (tid : Nat) : Option Task :=
  s.tasks.find? (fun t => t.id == tid)

/-- Readback accessor: the attempt row a later `SELECT` observes. -/
def findAttempt (s : Store) (aid : Nat) : Option TaskAttempt :=
  s.attempts.find? (fun a => a.id == aid)

/-- Response body of POST /tasks/{id}/claim, from models.rs ClaimResponse. -/
structure ClaimResponse where
  claim_expires_at : Nat
  deriving DecidableEq, Repr

/-- routes.rs claim_task: fetch the task; unless its status is Pending or
Review answer 409 Conflict without writing; otherwise set status=Claimed,
assignee=caller, updated_at=now, persist exactly those three columns, and
answer with a 30-minute claim expiry. -/
def claim_task (s : Store) (user : Nat) (task_id : Nat) (now : Nat) :
    Except AppErr ClaimResponse × Store :=
  match fetch_task s task_id with
  | .error e => (.error e, s)
  | .ok task =>
    match task.status with
    | .pending | .review =>
      let task2 := { task with
        status := .claimed
        assignee_id := some user
        updated_at := now }
      (.ok { claim_expires_at := claim_expiration 30 now },
        { s with tasks := updateRow (fun t => t.id) s.tasks task2 })
    | _ => (.error .conflict, s)

/-- routes.rs create_attempt: fetch the task; 403 Forbidden unless the
caller is the current assignee; otherwise insert a fresh attempt in
Running and advance the task to Running. -/
def create_attempt (s : Store) (user : Nat) (task_id : Nat) (now : Nat) :
    Except AppErr TaskAttempt × Store :=
  match fetch_task s task_id with
  | .error e => (.error e, s)
  | .ok task =>
    if task.assignee_id == some user then
      let task2 := { task with status := .running, updated_at := now }
      let attempt : TaskAttempt := {
        id := s.nextAttemptId
        task_id := task.id
        created_by := user
        status := .running
        diff_artifact_id := none
        log_artifact_id := none
        created_at := now
        updated_at := now }
      (.ok attempt,
        { s with
          tasks := updateRow (fun t => t.id) s.tasks task2
          attempts := attempt :: s.attempts
          nextAttemptId := s.nextAttemptId + 1 })
    else (.error .forbidden, s)

/-- Request body of POST /tasks/attempts/{id}/complete, from models.rs
AttemptCompleteRequest. -/
structure AttemptCompleteRequest where
  status : AttemptStatus
  diff : Option String
  log : Option String
  deriving DecidableEq, Repr

/-- Response body of the complete endpoint, from models.rs
AttemptCompleteResponse. -/
structure AttemptCompleteResponse where
  status : AttemptStatus
  diff_url : Option String
  log_url : Option String
  deriving DecidableEq, Repr

/-- artifacts.rs artifact_url: resolves an optional artifact id to a
retrieval URL under the store's base url; never fails. -/
def artifact_url (base : String) (id : Option String) : Option String :=
  id.map (fun i => base ++ "/" ++ i)

/-- The `if let Some(x) = payload.x { store it }` step of complete_attempt:
when content is provided, store it through the artifact oracle (content,
suffix ↦ artifact id, or a storage failure); when absent keep the
attempt's existing artifact id. -/
def storeOpt (art : String → String → Except AppErr String)
    (content : Option String) (suffix : String) (existing : Option String) :
    Except AppErr (Option String) :=
  match content with
  | none => .ok existing
  | some c =>
    match art c suffix with
    | .error e => .error e
    | .ok id => .ok (some id)

/-- routes.rs complete_attempt: fetch attempt then its task; 403 unless the
caller is the task's assignee; store provided diff/log artifacts (failures
propagate before any row is written); overwrite the attempt's status with
the reported one; drive the task status (Succeeded ↦ Review, Failed ↦
Pending, otherwise untouched); persist both rows. -/
def complete_attempt (art : String → String → Except AppErr String)
    (base : String) (s : Store) (user : Nat) (attempt_id : Nat)
    (payload : AttemptCompleteRequest) (now : Nat) :
    Except AppErr AttemptCompleteResponse × Store :=
  match fetch_attempt s attempt_id with
  | .error e => (.error e, s)
  | .ok attempt =>
    match fetch_task s attempt.task_id with
    | .error e => (.error e, s)
    | .ok task =>
      if task.assignee_id == some user then
        match storeOpt art payload.diff "diff" attempt.diff_artifact_id with
        | .error e => (.error e, s)
        | .ok diffId =>
          match storeOpt art payload.log "log" attempt.log_artifact_id with
          | .error e => (.error e, s)
          | .ok logId =>
            let attempt2 := { attempt with
              status := payload.status
              diff_artifact_id := diffId
              log_artifact_id := logId
              updated_at := now }
            let task2 := { task with
              updated_at := now
              status :=
                match payload.status with
                | .succeeded => .review
                | .failed => .pending
                | _ => task.status }
            (.ok { status := attempt2.status
                   diff_url := artifact_url base attempt2.diff_artifact_id
                   log_url := artifact_url base attempt2.log_artifact_id },
              { s with
                attempts := updateRow (fun a => a.id) s.attempts attempt2
                tasks := updateRow (fun t => t.id) s.tasks task2 })
      else (.error .forbidden, s)

/-- An attempt that has not reached a terminal status. -/
def nonTerminal (a : TaskAttempt) : Bool :=
  a.status == .queued || a.status == .running

/-- A store with the attempt `aid` rewritten to carry status `σ` and all
else unchanged (used to express that an operation is independent of the
attempt's stored status). -/
def setAttemptStatus (s : Store) (aid : Nat) (σ : AttemptStatus) : Store :=
  { s with
    attempts := s.attempts.map
      (fun a => if a.id == aid then { a with status := σ } else a) }

/-!
Worker-side authenticated client, from cloud/supervisor/src/main.rs
send_authenticated / refresh_token.  A call is modelled by the transcript
of what the network would answer: the HTTP status of the initial send, the
outcome of a re-authentication, and the status of a re-sent request.
-/

/-- What one send_authenticated call can deliver to its caller: a response
with some HTTP status, or the propagated error of a failed
re-authentication. -/
inductive SendResult where
  | ok (status : Nat)
  | authError
  deriving DecidableEq, Repr

/-- The network's side of one send_authenticated call. -/
structure SendTranscript where
  firstResponse : Nat
  refreshOk : Bool
  retryResponse : Nat
  deriving DecidableEq, Repr

/-- Observable outcome of send_authenticated: the delivered result plus
how many times the request was sent and how many re-authentications
happened. -/
structure SendOutcome where
  result : SendResult
  sends : Nat
  reauths : Nat
  deriving DecidableEq, Repr

/-- main.rs send_authenticated: send with the current bearer token; if and
only if the response is 401 Unauthorized, refresh the token once
(propagating a refresh failure) and send once more, returning that second
response whatever its status. -/
def send_authenticated (tr : SendTranscript) : SendOutcome :=
  if tr.firstResponse == 401 then
    if tr.refreshOk then
      { result := .ok tr.retryResponse, sends := 2, reauths := 1 }
    else
      { result := .authError, sends := 1, reauths := 1 }
  else
    { result := .ok tr.firstResponse, sends := 1, reauths := 0 }

/-!
Snapshot pool, from cloud/supervisor/src/pool.rs.  The warm queue
(a `VecDeque<String>`, front at the list head) and the settings' target
size form the state; a `supply` counter models successive provisioning
calls (`Uuid::new_v4` placeholders, or successive hook invocations).  The
optional prewarm hook is an oracle from the call index to the hook's
outcome (snapshot id on stdout, or a hard failure).
-/

/-- Pool state: configured target size, warm queue, provisioning counter. -/
structure PoolState where
  size : Nat
  available : List String
  supply : Nat
  deriving DecidableEq, Repr

/-- pool.rs SnapshotPool::new: empty warm queue. -/
def poolInit (size : Nat) : PoolState :=
  { size := size, available := [], supply := 0 }

/-- A checked-out snapshot handle plus its recyclability flag, from
pool.rs SnapshotLease. -/
structure SnapshotLease where
  id : String
  recyclable : Bool
  deriving DecidableEq, Repr

/-- pool.rs SnapshotPool::create_snapshot: run the prewarm hook when one is
configured (its failure is a hard error), otherwise synthesize a fresh
placeholder identifier. -/
def create_snapshot (hook : Option (Nat → Except String String))
    (supply : Nat) : Except String String :=
  match hook with
  | some h => h supply
  | none => .ok ("snapshot-" ++ toString supply)

/-- The `while guard.len() < desired` loop of ensure_warm_capacity:
provision and push until the queue holds `desired` snapshots; a
provisioning failure aborts the loop, keeping the snapshots already
pushed. -/
def ensureLoop (hook : Option (Nat → Except String String)) (desired : Nat)
    (st : PoolState) : Except String Unit × PoolState :=
  if _h : st.available.length < desired then
    match create_snapshot hook st.supply with
    | .error e => (.error e, st)
    | .ok id =>
      ensureLoop hook desired
        { st with supply := st.supply + 1, available := st.available ++ [id] }
  else (.ok (), st)
  termination_by desired - st.available.length
  decreasing_by simp; omega

/-- pool.rs SnapshotPool::ensure_warm_capacity: no-op when the target size
is 0, otherwise fill the warm queue up to the target. -/
def ensure_warm_capacity (hook : Option (Nat → Except String String))
    (st : PoolState) : Except String Unit × PoolState :=
  if st.size == 0 then (.ok (), st)
  else ensureLoop hook st.size st

/-- pool.rs SnapshotPool::checkout: with target size 0, provision a fresh
non-recyclable snapshot per call; otherwise pop a warm snapshot when one
is queued (recyclable), and on an empty queue provision one on demand,
also recyclable. -/
def checkout (hook : Option (Nat → Except String String)) (st : PoolState) :
    Except String SnapshotLease × PoolState :=
  if st.size == 0 then
    match create_snapshot hook st.supply with
    | .error e => (.error e, st)
    | .ok id =>
      (.ok { id := id, recyclable := false }, { st with supply := st.supply + 1 })
  else
    match st.available with
    | id :: rest =>
      (.ok { id := id, recyclable := true }, { st with available := rest })
    | [] =>
      match create_snapshot hook st.supply with
      | .error e => (.error e, st)
      | .ok id =>
        (.ok { id := id, recyclable := true }, { st with supply := st.supply + 1 })

/-- pool.rs SnapshotPool::recycle: a non-recyclable lease is dropped; a
recyclable one is pushed back only while the queue is strictly below the
target size, and dropped otherwise. -/
def recycle (st : PoolState) (lease : SnapshotLease) : PoolState :=
  if lease.recyclable then
    if st.available.length < st.size then
      { st with available := st.available ++ [lease.id] }
    else st
  else st

/-- pool.rs SnapshotPool::discard: explicit no-op hook point. -/
def discard (st : PoolState) (_lease : SnapshotLease) : PoolState :=
  st

/-- One pool operation of the sequential interface. -/
inductive PoolOp where
  | ensure
  | chkout
  | recyc (lease : SnapshotLease)
  | disc (lease : SnapshotLease)
  deriving Repr

/-- The state reached by one pool operation (responses discarded). -/
def poolStep (hook : Option (Nat → Except String String)) (st : PoolState) :
    PoolOp → PoolState
  | .ensure => (ensure_warm_capacity hook st).2
  | .chkout => (checkout hook st).2
  | .recyc lease => recycle st lease
  | .disc lease => discard st lease

/-- The state reached by a sequence of pool operations. -/
def runPool (hook : Option (Nat → Except String String)) (st : PoolState) :
    List PoolOp → PoolState
  | [] => st
  | op :: ops => runPool hook (poolStep hook st op) ops

/-- Whether an Except value is a success. -/
def exOk {ε α : Type} : Except ε α → Bool
  | .ok _ => true
  | .error _ => false

/-- Decidable equality of Except values (componentwise). -/
instance exceptDecEq {ε α : Type} [DecidableEq ε] [DecidableEq α] :
    DecidableEq (Except ε α) := fun x y =>
  match x, y with
  | .ok a, .ok b =>
    if h : a = b then isTrue (by rw [h]) else isFalse (by simp [h])
  | .error e, .error f =>
    if h : e = f then isTrue (by rw [h]) else isFalse (by simp [h])
  | .ok _, .error _ => isFalse (by simp)
  | .error _, .ok _ => isFalse (by simp)

/-- Warm-queue invariant: the queue never holds more than the target size. -/
def poolInv (st : PoolState) : Prop :=
  st.available.length ≤ st.size

/-- Fixture: a pending, unassigned task. -/
def exTask : Task :=
  { id := 1
    title := "Demo Task"
    description := none
    repository_id := 1
    status := .pending
    assignee_id := none
    created_by := 7
    created_at := 0
    updated_at := 0
    environment_id := none }

/-- Fixture: a store holding only the pending task. -/
def exStore : Store :=
  { tasks := [exTask], attempts := [], nextAttemptId := 1 }

/-- Fixture: the task mid-execution, assigned to user 7. -/
def exRunningTask : Task :=
  { exTask with status := .running, assignee_id := some 7 }

/-- Fixture: a non-terminal (Running) attempt open on task 1 by user 7. -/
def exOpenAttempt : TaskAttempt :=
  { id := 1
    task_id := 1
    created_by := 7
    status := .running
    diff_artifact_id := none
    log_artifact_id := none
    created_at := 0
    updated_at := 0 }

/-- Fixture: a store where task 1 is Running with attempt 1 still open. -/
def exStore2 : Store :=
  { tasks := [exRunningTask], attempts := [exOpenAttempt], nextAttemptId := 2 }

/-- Fixture: a terminal (Succeeded) attempt on task 1. -/
def exDoneAttempt : TaskAttempt :=
  { exOpenAttempt with status := .succeeded }

/-- Fixture: a store where task 1 is in Review, assigned to 7, with a
terminal attempt recorded. -/
def exStore3 : Store :=
  { tasks := [{ exTask with status := .review, assignee_id := some 7 }]
    attempts := [exDoneAttempt]
    nextAttemptId := 2 }

/-- Fixture: the task claimed by user 7 but never started. -/
def exClaimedTask : Task :=
  { exTask with status := .claimed, assignee_id := some 7 }

/-- Fixture: a store where task 1 sits in Claimed, assigned to user 7. -/
def exStoreClaimed : Store :=
  { tasks := [exClaimedTask], attempts := [], nextAttemptId := 1 }

/-- Fixture: an artifact-storage oracle that always succeeds. -/
def exArt : String → String → Except AppErr String :=
  fun _ suffix => .ok (suffix ++ "-artifact")

/-- Fixture: an artifact-storage oracle that always fails. -/
def exArtFail : String → String → Except AppErr String :=
  fun _ _ => .error .internal

/-!  Helper lemmas  -/

theorem fetch_task_ok_find (s : Store) (tid : Nat) (t : Task)
    (h : fetch_task s tid = .ok t) :
    s.tasks.find? (fun u => u.id == tid) = some t := by
  unfold fetch_task at h
  cases hx : s.tasks.find? (fun u => u.id == tid) with
  | none => rw [hx] at h; exact Except.noConfusion h
  | some u =>
    rw [hx] at h
    injection h with h2
    rw [← h2]

theorem fetch_task_ok_id (s : Store) (tid : Nat) (t : Task)
    (h : fetch_task s tid = .ok t) : t.id = tid := by
  have := List.find?_some (fetch_task_ok_find s tid t h)
  simpa using this

theorem fetch_attempt_ok_find (s : Store) (aid : Nat) (a : TaskAttempt)
    (h : fetch_attempt s aid = .ok a) :
    s.attempts.find? (fun u => u.id == aid) = some a := by
  unfold fetch_attempt at h
  cases hx : s.attempts.find? (fun u => u.id == aid) with
  | none => rw [hx] at h; exact Except.noConfusion h
  | some u =>
    rw [hx] at h
    injection h with h2
    rw [← h2]

theorem fetch_attempt_ok_id (s : Store) (aid : Nat) (a : TaskAttempt)
    (h : fetch_attempt s aid = .ok a) : a.id = aid := by
  have := List.find?_some (fetch_attempt_ok_find s aid a h)
  simpa using this

/-- After a row update keyed on the found row's id, a readback by that id
observes exactly the written row. -/
theorem find_updateRow {α : Type} (idOf : α → Nat) (xs : List α) (x y : α)
    (tid : Nat) (hfind : xs.find? (fun u => idOf u == tid) = some x)
    (hid : idOf y = idOf x) :
    (updateRow idOf xs y).find? (fun u => idOf u == tid) = some y := by
  induction xs with
  | nil => simp at hfind
  | cons a as ih =>
    rw [updateRow, List.map_cons]
    rw [List.find?_cons] at hfind
    by_cases ha : idOf a = tid
    · simp only [ha, beq_self_eq_true] at hfind
      have hax : a = x := by simpa using hfind
      have hyt : idOf y = tid := by rw [hid, ← hax]; exact ha
      simp [ha, hyt]
    · have ha2 : (idOf a == tid) = false := by simp [ha]
      simp only [ha2] at hfind
      have hxt : idOf x = tid := by simpa using List.find?_some hfind
      have hyt : idOf y = tid := by rw [hid, hxt]
      have hrec := ih hfind
      rw [updateRow] at hrec
      simpa [ha, hyt] using hrec

/-!  Claim C1  -/

/-- C1: for an existing task, claim succeeds iff its current status is
Pending or Review; on success it answers the 30-minute expiry and a
readback observes status Claimed, assignee = caller, updated timestamp;
for any other prior status the call returns Conflict and the store is
unchanged. -/
theorem claim_task_claimable_iff (s : Store) (user tid now : Nat) (t : Task)
    (hfind : fetch_task s tid = .ok t) :
    (exOk (claim_task s user tid now).1 = true ↔
        (t.status = .pending ∨ t.status = .review)) ∧
    ((t.status = .pending ∨ t.status = .review) →
      (claim_task s user tid now).1 =
          .ok { claim_expires_at := claim_expiration 30 now } ∧
      findTask (claim_task s user tid now).2 tid =
        some { t with status := .claimed, assignee_id := some user,
                      updated_at := now }) ∧
    (¬ (t.status = .pending ∨ t.status = .review) →
      claim_task s user tid now = (.error .conflict, s)) := by
  have hf := fetch_task_ok_find s tid t hfind
  rcases ht : t.status with _ | _ | _ | _ | _
  case pending =>
    refine ⟨by simp [claim_task, hfind, ht, exOk], fun _ => ⟨?_, ?_⟩, fun hn => ?_⟩
    · simp [claim_task, hfind, ht]
    · simp only [claim_task, hfind, ht, findTask]
      exact find_updateRow (fun u : Task => u.id) s.tasks t
        { t with status := .claimed, assignee_id := some user,
                 updated_at := now } tid hf rfl
    · exact absurd (Or.inl rfl) hn
  case review =>
    refine ⟨by simp [claim_task, hfind, ht, exOk], fun _ => ⟨?_, ?_⟩, fun hn => ?_⟩
    · simp [claim_task, hfind, ht]
    · simp only [claim_task, hfind, ht, findTask]
      exact find_updateRow (fun u : Task => u.id) s.tasks t
        { t with status := .claimed, assignee_id := some user,
                 updated_at := now } tid hf rfl
    · exact absurd (Or.inr rfl) hn
  case claimed =>
    refine ⟨by simp [claim_task, hfind, ht, exOk], fun hy => ?_, fun _ => ?_⟩
    · rcases hy with hy | hy <;> simp [ht] at hy
    · simp [claim_task, hfind, ht]
  case running =>
    refine ⟨by simp [claim_task, hfind, ht, exOk], fun hy => ?_, fun _ => ?_⟩
    · rcases hy with hy | hy <;> simp [ht] at hy
    · simp [claim_task, hfind, ht]
  case applied =>
    refine ⟨by simp [claim_task, hfind, ht, exOk], fun hy => ?_, fun _ => ?_⟩
    · rcases hy with hy | hy <;> simp [ht] at hy
    · simp [claim_task, hfind, ht]

/-- C1 witness: claiming the pending fixture task at time 5 as user 9
succeeds and a readback observes the claimed row. -/
theorem claim_task_claimable_iff_witness :
    exOk (claim_task exStore 9 1 5).1 = true ∧
    findTask (claim_task exStore 9 1 5).2 1 =
      some { exTask with status := .claimed, assignee_id := some 9,
                         updated_at := 5 } := by
  have h := claim_task_claimable_iff exStore 9 1 5 exTask (by rfl)
  exact ⟨(h.1).mpr (Or.inl rfl), ((h.2.1) (Or.inl rfl)).2⟩

/-!  Claim C2  -/

/-- C2 counterexample: in a store where a non-terminal attempt is already
open on task 1, a second start-attempt by the assignee does not return
Conflict; it succeeds and afterwards two non-terminal attempts exist for
the task (create_attempt performs no open-attempt check). -/
theorem create_attempt_no_open_check_cex :
    (∃ a ∈ exStore2.attempts, a.task_id = 1 ∧ nonTerminal a = true) ∧
    (create_attempt exStore2 7 1 5).1 ≠ .error .conflict ∧
    exOk (create_attempt exStore2 7 1 5).1 = true ∧
    ((create_attempt exStore2 7 1 5).2.attempts.filter
        (fun a => a.task_id == 1 && nonTerminal a)).length = 2 := by
  decide

/-- C2 amended: the start-attempt endpoint performs no open-attempt check:
a start-attempt by the task's assignee succeeds even while a distinct
non-terminal attempt is already open on the task, creating a second
non-terminal (Running) attempt. -/
theorem create_attempt_succeeds_despite_open_attempt
    (s : Store) (user tid now : Nat) (t : Task) (a0 : TaskAttempt)
    (hfind : fetch_task s tid = .ok t)
    (hassign : t.assignee_id = some user)
    (hmem : a0 ∈ s.attempts) (_htask : a0.task_id = tid)
    (_hopen : nonTerminal a0 = true)
    (hfresh : a0.id ≠ s.nextAttemptId) :
    ∃ a, (create_attempt s user tid now).1 = .ok a ∧
      a.status = .running ∧ a.task_id = tid ∧ nonTerminal a = true ∧
      a ≠ a0 ∧
      a ∈ (create_attempt s user tid now).2.attempts ∧
      a0 ∈ (create_attempt s user tid now).2.attempts := by
  have hid := fetch_task_ok_id s tid t hfind
  have hcond : (t.assignee_id == some user) = true := by simp [hassign]
  refine ⟨{ id := s.nextAttemptId, task_id := t.id, created_by := user,
            status := .running, diff_artifact_id := none,
            log_artifact_id := none, created_at := now, updated_at := now },
          ?_, rfl, hid, rfl, ?_, ?_, ?_⟩
  · simp [create_attempt, hfind, hcond]
  · intro h
    exact hfresh (by rw [← h])
  · simp [create_attempt, hfind, hcond]
  · simp [create_attempt, hfind, hcond]
    exact Or.inr hmem

/-- C2 amended witness: the concrete double start-attempt on the fixture
store with the open attempt. -/
theorem create_attempt_succeeds_despite_open_attempt_witness :
    ∃ a, (create_attempt exStore2 7 1 5).1 = .ok a ∧
      a.status = .running ∧ a.task_id = 1 ∧ nonTerminal a = true ∧
      a ≠ exOpenAttempt ∧
      a ∈ (create_attempt exStore2 7 1 5).2.attempts ∧
      exOpenAttempt ∈ (create_attempt exStore2 7 1 5).2.attempts :=
  create_attempt_succeeds_despite_open_attempt exStore2 7 1 5 exRunningTask
    exOpenAttempt (by rfl) (by rfl) (by decide) (by rfl) (by rfl) (by decide)

/-!  Claim C4  -/

/-- C4: for an existing task, start-attempt succeeds iff the caller equals
the task's current assignee; a non-assignee gets Forbidden with the store
untouched; the assignee gets a fresh Running attempt prepended to the
attempts and the task advanced to Running. -/
theorem create_attempt_assignee_gate (s : Store) (user tid now : Nat)
    (t : Task) (hfind : fetch_task s tid = .ok t) :
    (exOk (create_attempt s user tid now).1 = true ↔
        t.assignee_id = some user) ∧
    (t.assignee_id ≠ some user →
      create_attempt s user tid now = (.error .forbidden, s)) ∧
    (t.assignee_id = some user →
      ∃ a, (create_attempt s user tid now).1 = .ok a ∧
        a.status = .running ∧
        (create_attempt s user tid now).2.attempts = a :: s.attempts ∧
        findTask (create_attempt s user tid now).2 tid =
          some { t with status := .running, updated_at := now }) := by
  have hf := fetch_task_ok_find s tid t hfind
  by_cases hass : t.assignee_id = some user
  · have hcond : (t.assignee_id == some user) = true := by simp [hass]
    refine ⟨by simp [create_attempt, hfind, hcond, exOk, hass],
            fun hn => absurd hass hn, fun _ => ?_⟩
    refine ⟨{ id := s.nextAttemptId, task_id := t.id, created_by := user,
              status := .running, diff_artifact_id := none,
              log_artifact_id := none, created_at := now, updated_at := now },
            ?_, rfl, ?_, ?_⟩
    · simp [create_attempt, hfind, hcond]
    · simp [create_attempt, hfind, hcond]
    · simp only [create_attempt, hfind, hcond, findTask]
      exact find_updateRow (fun u : Task => u.id) s.tasks t
        { t with status := .running, updated_at := now } tid hf rfl
  · have hcond : (t.assignee_id == some user) = false := by simp [hass]
    refine ⟨by simp [create_attempt, hfind, hcond, exOk, hass],
            fun _ => by simp [create_attempt, hfind, hcond],
            fun hy => absurd hy hass⟩

/-- C4 witness: on the fixture store the assignee's start-attempt succeeds
and a stranger's is rejected with Forbidden, store unchanged. -/
theorem create_attempt_assignee_gate_witness :
    exOk (create_attempt exStore2 7 1 5).1 = true ∧
    create_attempt exStore2 9 1 5 = (.error .forbidden, exStore2) := by
  have h1 := create_attempt_assignee_gate exStore2 7 1 5 exRunningTask (by rfl)
  have h2 := create_attempt_assignee_gate exStore2 9 1 5 exRunningTask (by rfl)
  exact ⟨(h1.1).mpr rfl, h2.2.1 (by decide)⟩

/-!  Claim C9  -/

/-- C9: a successful claim reports an expiry of exactly the claim time
plus 30 minutes, while the write touches only the task's assignee,
status, and updated timestamp (all other task fields and the whole
attempts table are untouched), the store retains no expiry at all, and
nothing ever releases a stale claim: a task sitting in Claimed yields
Conflict to every later claim no matter how much time has passed. -/
theorem claim_expiry_unenforced (s : Store) (user tid now : Nat) (t : Task)
    (hfind : fetch_task s tid = .ok t) :
    (∀ r, (claim_task s user tid now).1 = .ok r →
        r.claim_expires_at = now + 30) ∧
    ((claim_task s user tid now).2.attempts = s.attempts) ∧
    ((claim_task s user tid now).2.nextAttemptId = s.nextAttemptId) ∧
    (∀ u, findTask (claim_task s user tid now).2 tid = some u →
        u.title = t.title ∧ u.description = t.description ∧
        u.repository_id = t.repository_id ∧ u.created_by = t.created_by ∧
        u.created_at = t.created_at ∧
        u.environment_id = t.environment_id) ∧
    (t.status = .claimed →
        ∀ user2 now2, claim_task s user2 tid now2 = (.error .conflict, s)) := by
  have hf := fetch_task_ok_find s tid t hfind
  rcases ht : t.status with _ | _ | _ | _ | _
  case pending =>
    refine ⟨?_, ?_, ?_, ?_, fun hc => ?_⟩
    · intro r hr
      simp [claim_task, hfind, ht, claim_expiration] at hr
      simp [← hr]
    · simp [claim_task, hfind, ht]
    · simp [claim_task, hfind, ht]
    · intro u hu
      simp only [claim_task, hfind, ht, findTask] at hu
      rw [find_updateRow (fun v : Task => v.id) s.tasks t
        { t with status := .claimed, assignee_id := some user,
                 updated_at := now } tid hf rfl] at hu
      injection hu with hu2
      rw [← hu2]
      exact ⟨rfl, rfl, rfl, rfl, rfl, rfl⟩
    · exact absurd hc (by simp [ht])
  case review =>
    refine ⟨?_, ?_, ?_, ?_, fun hc => ?_⟩
    · intro r hr
      simp [claim_task, hfind, ht, claim_expiration] at hr
      simp [← hr]
    · simp [claim_task, hfind, ht]
    · simp [claim_task, hfind, ht]
    · intro u hu
      simp only [claim_task, hfind, ht, findTask] at hu
      rw [find_updateRow (fun v : Task => v.id) s.tasks t
        { t with status := .claimed, assignee_id := some user,
                 updated_at := now } tid hf rfl] at hu
      injection hu with hu2
      rw [← hu2]
      exact ⟨rfl, rfl, rfl, rfl, rfl, rfl⟩
    · exact absurd hc (by simp [ht])
  case claimed =>
    refine ⟨?_, ?_, ?_, ?_, fun _ user2 now2 => ?_⟩
    · intro r hr
      simp [claim_task, hfind, ht] at hr
    · simp [claim_task, hfind, ht]
    · simp [claim_task, hfind, ht]
    · intro u hu
      simp only [claim_task, hfind, ht, findTask] at hu
      rw [hf] at hu
      injection hu with hu2
      rw [← hu2]
      exact ⟨rfl, rfl, rfl, rfl, rfl, rfl⟩
    · simp [claim_task, hfind, ht]
  case running =>
    refine ⟨?_, ?_, ?_, ?_, fun hc => ?_⟩
    · intro r hr
      simp [claim_task, hfind, ht] at hr
    · simp [claim_task, hfind, ht]
    · simp [claim_task, hfind, ht]
    · intro u hu
      simp only [claim_task, hfind, ht, findTask] at hu
      rw [hf] at hu
      injection hu with hu2
      rw [← hu2]
      exact ⟨rfl, rfl, rfl, rfl, rfl, rfl⟩
    · exact absurd hc (by simp [ht])
  case applied =>
    refine ⟨?_, ?_, ?_, ?_, fun hc => ?_⟩
    · intro r hr
      simp [claim_task, hfind, ht] at hr
    · simp [claim_task, hfind, ht]
    · simp [claim_task, hfind, ht]
    · intro u hu
      simp only [claim_task, hfind, ht, findTask] at hu
      rw [hf] at hu
      injection hu with hu2
      rw [← hu2]
      exact ⟨rfl, rfl, rfl, rfl, rfl, rfl⟩
    · exact absurd hc (by simp [ht])

/-- C9 witness: the concrete pending-task claim reports expiry 35 at
claim time 5, and the already-claimed fixture store rejects a claim at a
much later time with Conflict, unchanged. -/
theorem claim_expiry_unenforced_witness :
    ClaimResponse.claim_expires_at { claim_expires_at := 35 } = 5 + 30 ∧
    claim_task exStoreClaimed 9 1 999 = (.error .conflict, exStoreClaimed) := by
  refine ⟨(claim_expiry_unenforced exStore 9 1 5 exTask (by rfl)).1
            { claim_expires_at := 35 } (by decide), ?_⟩
  exact (claim_expiry_unenforced exStoreClaimed 9 1 0 exClaimedTask
    (by rfl)).2.2.2.2 rfl 9 999

/-!  Claim C3  -/

/-- C3: when the assignee completes an attempt (and artifact storage
succeeds), the attempt row is overwritten with the reported status in all
cases, and the task is driven by that status: Succeeded puts the task in
Review, Failed puts it back in Pending, Queued or Running leaves the task
status exactly as it was. -/
theorem complete_attempt_drives_task
    (art : String → String → Except AppErr String) (base : String)
    (s : Store) (user aid now : Nat) (p : AttemptCompleteRequest)
    (a : TaskAttempt) (t : Task) (dId lId : Option String)
    (hfa : fetch_attempt s aid = .ok a)
    (hft : fetch_task s a.task_id = .ok t)
    (hass : t.assignee_id = some user)
    (hd : storeOpt art p.diff "diff" a.diff_artifact_id = .ok dId)
    (hl : storeOpt art p.log "log" a.log_artifact_id = .ok lId) :
    exOk (complete_attempt art base s user aid p now).1 = true ∧
    findAttempt (complete_attempt art base s user aid p now).2 aid =
      some { a with status := p.status, diff_artifact_id := dId,
                    log_artifact_id := lId, updated_at := now } ∧
    (p.status = .succeeded →
      findTask (complete_attempt art base s user aid p now).2 a.task_id =
        some { t with updated_at := now, status := .review }) ∧
    (p.status = .failed →
      findTask (complete_attempt art base s user aid p now).2 a.task_id =
        some { t with updated_at := now, status := .pending }) ∧
    ((p.status = .queued ∨ p.status = .running) →
      findTask (complete_attempt art base s user aid p now).2 a.task_id =
        some { t with updated_at := now, status := t.status }) := by
  have hfA := fetch_attempt_ok_find s aid a hfa
  have hfT := fetch_task_ok_find s a.task_id t hft
  have hcond : (t.assignee_id == some user) = true := by simp [hass]
  refine ⟨?_, ?_, fun hp => ?_, fun hp => ?_, fun hp => ?_⟩
  · simp [complete_attempt, hfa, hft, hcond, hd, hl, exOk]
  · simp only [complete_attempt, hfa, hft, hcond, hd, hl, findAttempt]
    exact find_updateRow (fun u : TaskAttempt => u.id) s.attempts a
      { a with status := p.status, diff_artifact_id := dId,
               log_artifact_id := lId, updated_at := now } aid hfA rfl
  · simp only [complete_attempt, hfa, hft, hcond, hd, hl, findTask, hp]
    exact find_updateRow (fun u : Task => u.id) s.tasks t
      { t with updated_at := now, status := .review } a.task_id hfT rfl
  · simp only [complete_attempt, hfa, hft, hcond, hd, hl, findTask, hp]
    exact find_updateRow (fun u : Task => u.id) s.tasks t
      { t with updated_at := now, status := .pending } a.task_id hfT rfl
  · rcases hp with hp | hp <;>
      simp only [complete_attempt, hfa, hft, hcond, hd, hl, findTask, hp] <;>
      exact find_updateRow (fun u : Task => u.id) s.tasks t
        { t with updated_at := now, status := t.status } a.task_id hfT rfl

/-- C3 witness: completing the fixture's open attempt with Succeeded puts
the task in Review and overwrites the attempt row. -/
theorem complete_attempt_drives_task_witness :
    exOk (complete_attempt exArt "b" exStore2 7 1
        { status := .succeeded, diff := some "d", log := none } 9).1 = true ∧
    findTask (complete_attempt exArt "b" exStore2 7 1
        { status := .succeeded, diff := some "d", log := none } 9).2 1 =
      some { exRunningTask with updated_at := 9, status := .review } := by
  have h := complete_attempt_drives_task exArt "b" exStore2 7 1 9
      { status := .succeeded, diff := some "d", log := none }
      exOpenAttempt exRunningTask (some "diff-artifact") none
      (by rfl) (by rfl) (by rfl) (by rfl) (by rfl)
  exact ⟨h.1, h.2.2.1 rfl⟩

/-!  Claim C10  -/

/-- Replacing an attempt's stored status does not change which row the
attempt fetch finds, only that row's status field. -/
theorem fetch_attempt_setAttemptStatus (s : Store) (aid : Nat)
    (σ : AttemptStatus) :
    fetch_attempt (setAttemptStatus s aid σ) aid =
      (fetch_attempt s aid).map (fun a => { a with status := σ }) := by
  unfold fetch_attempt setAttemptStatus
  rw [List.find?_map]
  have hp : ((fun a : TaskAttempt => a.id == aid) ∘
      (fun a => if a.id == aid then { a with status := σ } else a)) =
      (fun a : TaskAttempt => a.id == aid) := by
    funext u
    by_cases h : u.id = aid <;> simp [h]
  rw [hp]
  cases hx : s.attempts.find? (fun a => a.id == aid) with
  | none => rfl
  | some a =>
    have ha : a.id = aid := by simpa using List.find?_some hx
    simp [Except.map, ha]

/-- C10: complete-attempt fails exactly when the attempt is missing, its
parent task is missing, the caller is not the task's assignee, or storing
a provided artifact fails; and the attempt's current status imposes no
precondition: rewriting the stored status to anything (including a
terminal one) leaves the call's outcome unchanged, so an already-terminal
attempt can be completed again. -/
theorem complete_attempt_error_conditions
    (art : String → String → Except AppErr String) (base : String)
    (s : Store) (user aid now : Nat) (p : AttemptCompleteRequest) :
    (exOk (complete_attempt art base s user aid p now).1 = true ↔
      ∃ a, fetch_attempt s aid = .ok a ∧
        ∃ t, fetch_task s a.task_id = .ok t ∧
          t.assignee_id = some user ∧
          exOk (storeOpt art p.diff "diff" a.diff_artifact_id) = true ∧
          exOk (storeOpt art p.log "log" a.log_artifact_id) = true) ∧
    (∀ σ, exOk (complete_attempt art base (setAttemptStatus s aid σ)
            user aid p now).1 =
          exOk (complete_attempt art base s user aid p now).1) := by
  constructor
  · cases hfa : fetch_attempt s aid with
    | error e => simp [complete_attempt, hfa, exOk]
    | ok a =>
      cases hft : fetch_task s a.task_id with
      | error e => simp [complete_attempt, hfa, hft, exOk]
      | ok t =>
        by_cases hass : t.assignee_id = some user
        · have hcond : (t.assignee_id == some user) = true := by simp [hass]
          cases hd : storeOpt art p.diff "diff" a.diff_artifact_id with
          | error e =>
            simp [complete_attempt, hfa, hft, hcond, hd, exOk, hass]
          | ok dId =>
            cases hl : storeOpt art p.log "log" a.log_artifact_id with
            | error e =>
              simp [complete_attempt, hfa, hft, hcond, hd, hl, exOk, hass]
            | ok lId =>
              simp [complete_attempt, hfa, hft, hcond, hd, hl, exOk, hass]
        · have hcond : (t.assignee_id == some user) = false := by simp [hass]
          simp [complete_attempt, hfa, hft, hcond, exOk, hass]
  · intro σ
    have hts : ∀ tid, fetch_task (setAttemptStatus s aid σ) tid =
        fetch_task s tid := fun _ => rfl
    cases hfa : fetch_attempt s aid with
    | error e =>
      have hfa2 : fetch_attempt (setAttemptStatus s aid σ) aid = .error e := by
        rw [fetch_attempt_setAttemptStatus, hfa]; rfl
      simp [complete_attempt, hfa, hfa2]
    | ok a =>
      have hfa2 : fetch_attempt (setAttemptStatus s aid σ) aid =
          .ok { a with status := σ } := by
        rw [fetch_attempt_setAttemptStatus, hfa]; rfl
      cases hft : fetch_task s a.task_id with
      | error e => simp [complete_attempt, hfa, hfa2, hts, hft]
      | ok t =>
        by_cases hass : t.assignee_id = some user
        · have hcond : (t.assignee_id == some user) = true := by simp [hass]
          cases hd : storeOpt art p.diff "diff" a.diff_artifact_id with
          | error e =>
            simp [complete_attempt, hfa, hfa2, hts, hft, hcond, hd, exOk]
          | ok dId =>
            cases hl : storeOpt art p.log "log" a.log_artifact_id with
            | error e =>
              simp [complete_attempt, hfa, hfa2, hts, hft, hcond, hd, hl, exOk]
            | ok lId =>
              simp [complete_attempt, hfa, hfa2, hts, hft, hcond, hd, hl, exOk]
        · have hcond : (t.assignee_id == some user) = false := by simp [hass]
          simp [complete_attempt, hfa, hfa2, hts, hft, hcond, exOk]

/-- C10 witness: re-completing the fixture's already-Succeeded attempt
(as Failed, by the assignee) is accepted. -/
theorem complete_attempt_error_conditions_witness :
    exOk (complete_attempt exArt "b" exStore3 7 1
        { status := .failed, diff := none, log := none } 9).1 = true := by
  have h := complete_attempt_error_conditions exArt "b" exStore3 7 1 9
      { status := .failed, diff := none, log := none }
  exact (h.1).mpr ⟨exDoneAttempt, by rfl,
    { exTask with status := .review, assignee_id := some 7 }, by rfl,
    by rfl, by rfl, by rfl⟩

/-!  Claim C5  -/

/-- C5: a non-401 first response is returned as-is with no
re-authentication; a 401 first response triggers exactly one
re-authentication and at most one more send, and when the refresh
succeeds the retried request's response — whatever its status — is what
the caller receives, with exactly two sends in total; a failed refresh
propagates with no second send. -/
theorem send_authenticated_retry_once (tr : SendTranscript) :
    (tr.firstResponse ≠ 401 →
      send_authenticated tr =
        { result := .ok tr.firstResponse, sends := 1, reauths := 0 }) ∧
    (tr.firstResponse = 401 →
      (send_authenticated tr).reauths = 1 ∧
      (send_authenticated tr).sends ≤ 2 ∧
      (tr.refreshOk = true →
        send_authenticated tr =
          { result := .ok tr.retryResponse, sends := 2, reauths := 1 }) ∧
      (tr.refreshOk = false →
        send_authenticated tr =
          { result := .authError, sends := 1, reauths := 1 })) := by
  constructor
  · intro h
    have hb : (tr.firstResponse == 401) = false := by simp [h]
    simp [send_authenticated, hb]
  · intro h
    have hb : (tr.firstResponse == 401) = true := by simp [h]
    by_cases hr : tr.refreshOk = true
    · simp [send_authenticated, hb, hr]
    · have hr2 : tr.refreshOk = false := by
        cases hv : tr.refreshOk
        · rfl
        · exact absurd hv hr
      simp [send_authenticated, hb, hr2]

/-- C5 witness: a 401 then a successful refresh delivers the retry's
response with two sends and one re-authentication; a 200 first response
is delivered directly. -/
theorem send_authenticated_retry_once_witness :
    send_authenticated
        { firstResponse := 401, refreshOk := true, retryResponse := 200 } =
      { result := .ok 200, sends := 2, reauths := 1 } ∧
    send_authenticated
        { firstResponse := 200, refreshOk := true, retryResponse := 0 } =
      { result := .ok 200, sends := 1, reauths := 0 } := by
  refine ⟨((send_authenticated_retry_once
      { firstResponse := 401, refreshOk := true, retryResponse := 200 }).2
        rfl).2.2.1 rfl, ?_⟩
  exact (send_authenticated_retry_once
      { firstResponse := 200, refreshOk := true, retryResponse := 0 }).1
    (by decide)

/-!  Pool lemmas  -/

/-- The ensure loop stops as soon as the queue is no shorter than the
target. -/
theorem ensureLoop_stop (hook : Option (Nat → Except String String))
    (desired : Nat) (st : PoolState)
    (h : ¬ st.available.length < desired) :
    ensureLoop hook desired st = (.ok (), st) := by
  unfold ensureLoop
  simp [h]

/-- One successful provisioning step of the ensure loop. -/
theorem ensureLoop_step (hook : Option (Nat → Except String String))
    (desired : Nat) (st : PoolState)
    (h : st.available.length < desired) (id : String)
    (hcs : create_snapshot hook st.supply = .ok id) :
    ensureLoop hook desired st =
      ensureLoop hook desired
        { st with supply := st.supply + 1,
                  available := st.available ++ [id] } := by
  rw [ensureLoop]
  rw [dif_pos h, hcs]

/-- A failing provisioning step aborts the ensure loop with the state the
loop has built so far. -/
theorem ensureLoop_fail (hook : Option (Nat → Except String String))
    (desired : Nat) (st : PoolState)
    (h : st.available.length < desired) (e : String)
    (hcs : create_snapshot hook st.supply = .error e) :
    ensureLoop hook desired st = (.error e, st) := by
  rw [ensureLoop]
  rw [dif_pos h, hcs]

/-- Fuel-indexed specification of the ensure loop: the target size field
is preserved, the queue never overshoots the target when it started at or
below it, and on success the queue has reached the target. -/
theorem ensureLoop_spec (hook : Option (Nat → Except String String))
    (desired : Nat) :
    ∀ (n : Nat) (st : PoolState), desired - st.available.length ≤ n →
      (ensureLoop hook desired st).2.size = st.size ∧
      (st.available.length ≤ desired →
        (ensureLoop hook desired st).2.available.length ≤ desired) ∧
      ((ensureLoop hook desired st).1 = .ok () →
        desired ≤ (ensureLoop hook desired st).2.available.length) := by
  intro n
  induction n with
  | zero =>
    intro st hn
    have h : ¬ st.available.length < desired := by omega
    rw [ensureLoop_stop hook desired st h]
    refine ⟨rfl, fun hle => ?_, fun _ => ?_⟩
    · show st.available.length ≤ desired
      omega
    · show desired ≤ st.available.length
      omega
  | succ n ih =>
    intro st hn
    by_cases h : st.available.length < desired
    · cases hcs : create_snapshot hook st.supply with
      | error e =>
        rw [ensureLoop_fail hook desired st h e hcs]
        refine ⟨rfl, fun hle => hle, fun hok => ?_⟩
        exact absurd hok (by simp)
      | ok id =>
        rw [ensureLoop_step hook desired st h id hcs]
        have hrec := ih
          { st with supply := st.supply + 1,
                    available := st.available ++ [id] } (by simp; omega)
        refine ⟨hrec.1, fun hle => hrec.2.1 (by simp; omega), hrec.2.2⟩
    · rw [ensureLoop_stop hook desired st h]
      refine ⟨rfl, fun hle => ?_, fun _ => ?_⟩
      · show st.available.length ≤ desired
        omega
      · show desired ≤ st.available.length
        omega

/-- ensure_warm_capacity preserves the target, never overshoots it
starting from a queue at or below it, and on success with a positive
target ends with the queue at or above the target. -/
theorem ensure_warm_capacity_spec (hook : Option (Nat → Except String String))
    (st : PoolState) :
    (ensure_warm_capacity hook st).2.size = st.size ∧
    (st.available.length ≤ st.size →
      (ensure_warm_capacity hook st).2.available.length ≤ st.size) ∧
    ((ensure_warm_capacity hook st).1 = .ok () → st.size ≠ 0 →
      st.size ≤ (ensure_warm_capacity hook st).2.available.length) := by
  unfold ensure_warm_capacity
  by_cases h0 : st.size = 0
  · simp only [(show (st.size == 0) = true by simp [h0])]
    refine ⟨rfl, fun hle => hle, fun _ hn => absurd h0 hn⟩
  · simp only [(show (st.size == 0) = false by simp [h0])]
    have hs := ensureLoop_spec hook st.size st.size st (Nat.sub_le _ _)
    exact ⟨hs.1, hs.2.1, fun hok _ => hs.2.2 hok⟩

/-!  Claim C8  -/

/-- C8: a successful ensure_warm_capacity fills the queue up to the
target (a no-op when the target is 0), and running it again immediately
afterwards provisions nothing and changes nothing: the second call
returns the very same state, provisioning counter included. -/
theorem ensure_warm_capacity_idempotent
    (hook : Option (Nat → Except String String)) (st st1 : PoolState)
    (h : ensure_warm_capacity hook st = (.ok (), st1)) :
    ensure_warm_capacity hook st1 = (.ok (), st1) ∧
    (st.size = 0 → st1 = st) ∧
    (st.size ≠ 0 → st.size ≤ st1.available.length) := by
  have hspec := ensure_warm_capacity_spec hook st
  rw [h] at hspec
  by_cases h0 : st.size = 0
  · have hst : st1 = st := by
      unfold ensure_warm_capacity at h
      rw [(show (st.size == 0) = true by simp [h0])] at h
      simp at h
      exact h.symm
    subst hst
    refine ⟨?_, fun _ => rfl, fun hn => absurd h0 hn⟩
    unfold ensure_warm_capacity
    rw [(show (st1.size == 0) = true by simp [h0])]
    rfl
  · have hsz : st1.size = st.size := hspec.1
    have hlen : st.size ≤ st1.available.length := hspec.2.2 rfl h0
    refine ⟨?_, fun hc => absurd hc h0, fun _ => hlen⟩
    unfold ensure_warm_capacity
    rw [(show (st1.size == 0) = false by simp [hsz, h0])]
    exact ensureLoop_stop hook st1.size st1 (by omega)

/-- C8 witness: from a fresh pool of target 2 with no hook, the first
ensure call builds the two-snapshot queue and the second call returns
that state unchanged. -/
theorem ensure_warm_capacity_idempotent_witness :
    ensure_warm_capacity none
        { size := 2, available := ["snapshot-0", "snapshot-1"], supply := 2 } =
      (.ok (),
        { size := 2, available := ["snapshot-0", "snapshot-1"],
          supply := 2 }) := by
  refine (ensure_warm_capacity_idempotent none (poolInit 2) _ ?_).1
  have e0 : ensure_warm_capacity none (poolInit 2) =
      ensureLoop none 2 (poolInit 2) := rfl
  rw [e0]
  rw [ensureLoop_step none 2 (poolInit 2) (by decide) "snapshot-0" (by decide)]
  show ensureLoop none 2 { size := 2, available := ["snapshot-0"], supply := 1 } = _
  rw [ensureLoop_step none 2
    { size := 2, available := ["snapshot-0"], supply := 1 }
    (by decide) "snapshot-1" (by decide)]
  show ensureLoop none 2
    { size := 2, available := ["snapshot-0", "snapshot-1"], supply := 2 } = _
  exact ensureLoop_stop none 2 _ (by decide)

/-!  Claim C7  -/

/-- Every single pool operation preserves the warm-queue bound and the
configured target size. -/
theorem poolStep_inv (hook : Option (Nat → Except String String))
    (st : PoolState) (op : PoolOp) (h : poolInv st) :
    poolInv (poolStep hook st op) ∧ (poolStep hook st op).size = st.size := by
  cases op with
  | ensure =>
    show poolInv (ensure_warm_capacity hook st).2 ∧
      (ensure_warm_capacity hook st).2.size = st.size
    have hs := ensure_warm_capacity_spec hook st
    refine ⟨?_, hs.1⟩
    unfold poolInv at h ⊢
    rw [hs.1]
    exact hs.2.1 h
  | chkout =>
    show poolInv (checkout hook st).2 ∧ (checkout hook st).2.size = st.size
    unfold poolInv at h ⊢
    by_cases h0 : st.size = 0
    · have hc : (st.size == 0) = true := by simp [h0]
      cases hcs : create_snapshot hook st.supply with
      | error e =>
        have hres : (checkout hook st).2 = st := by
          unfold checkout
          rw [hc, hcs]
          rfl
        rw [hres]
        exact ⟨h, rfl⟩
      | ok id =>
        have hres : (checkout hook st).2 = { st with supply := st.supply + 1 } := by
          unfold checkout
          rw [hc, hcs]
          rfl
        rw [hres]
        exact ⟨h, rfl⟩
    · have hc : (st.size == 0) = false := by simp [h0]
      cases hav : st.available with
      | nil =>
        cases hcs : create_snapshot hook st.supply with
        | error e =>
          have hres : (checkout hook st).2 = st := by
            unfold checkout
            rw [hc, hav, hcs]
            rfl
          rw [hres]
          exact ⟨h, rfl⟩
        | ok id =>
          have hres : (checkout hook st).2 =
              { st with supply := st.supply + 1 } := by
            unfold checkout
            rw [hc, hav, hcs]
            rfl
          rw [hres]
          exact ⟨h, rfl⟩
      | cons id rest =>
        have hres : (checkout hook st).2 = { st with available := rest } := by
          unfold checkout
          rw [hc, hav]
          rfl
        rw [hres]
        refine ⟨?_, rfl⟩
        show rest.length ≤ st.size
        rw [hav] at h
        simp at h
        omega
  | recyc lease =>
    show poolInv (recycle st lease) ∧ (recycle st lease).size = st.size
    unfold poolInv at h ⊢
    unfold recycle
    by_cases hr : lease.recyclable = true
    · by_cases hlt : st.available.length < st.size
      · rw [if_pos hr, if_pos hlt]
        refine ⟨?_, rfl⟩
        show (st.available ++ [lease.id]).length ≤ st.size
        simp
        omega
      · rw [if_pos hr, if_neg hlt]
        exact ⟨h, rfl⟩
    · rw [if_neg hr]
      exact ⟨h, rfl⟩
  | disc lease => exact ⟨h, rfl⟩

/-- Every sequence of pool operations preserves the warm-queue bound and
the configured target size. -/
theorem runPool_inv (hook : Option (Nat → Except String String))
    (ops : List PoolOp) :
    ∀ st : PoolState, poolInv st →
      poolInv (runPool hook st ops) ∧ (runPool hook st ops).size = st.size := by
  induction ops with
  | nil => exact fun st h => ⟨h, rfl⟩
  | cons op ops ih =>
    intro st h
    have hstep := poolStep_inv hook st op h
    have hrest := ih (poolStep hook st op) hstep.1
    refine ⟨?_, ?_⟩
    · show poolInv (runPool hook (poolStep hook st op) ops)
      exact hrest.1
    · show (runPool hook (poolStep hook st op) ops).size = st.size
      rw [hrest.2, hstep.2]

/-- C7: starting from a fresh pool, after any operation sequence a recycle
leaves the warm queue at or below the configured target size; a
non-recyclable lease is never enqueued (recycle drops it, state
untouched), and a recyclable one is also dropped once the queue has
reached the target. -/
theorem recycle_queue_bound (hook : Option (Nat → Except String String))
    (size : Nat) (ops : List PoolOp) (lease : SnapshotLease) :
    (recycle (runPool hook (poolInit size) ops) lease).available.length ≤
        size ∧
    (lease.recyclable = false →
      recycle (runPool hook (poolInit size) ops) lease =
        runPool hook (poolInit size) ops) ∧
    (lease.recyclable = true →
      ¬ (runPool hook (poolInit size) ops).available.length <
          (runPool hook (poolInit size) ops).size →
      recycle (runPool hook (poolInit size) ops) lease =
        runPool hook (poolInit size) ops) := by
  have hinv := runPool_inv hook ops (poolInit size)
    (by unfold poolInv poolInit; simp)
  have hsz : (runPool hook (poolInit size) ops).size = size := hinv.2
  refine ⟨?_, fun hr => ?_, fun hr hfull => ?_⟩
  · unfold recycle
    by_cases hr : lease.recyclable = true
    · by_cases hlt : (runPool hook (poolInit size) ops).available.length <
          (runPool hook (poolInit size) ops).size
      · rw [if_pos hr, if_pos hlt]
        simp
        omega
      · rw [if_pos hr, if_neg hlt]
        have := hinv.1
        unfold poolInv at this
        omega
    · rw [if_neg hr]
      have := hinv.1
      unfold poolInv at this
      omega
  · unfold recycle
    rw [if_neg (by simp [hr])]
  · unfold recycle
    rw [if_pos hr, if_neg hfull]

/-- C7 witness: recycling a non-recyclable lease into the fixture run
leaves the state untouched and the queue within the target. -/
theorem recycle_queue_bound_witness :
    (recycle (runPool none (poolInit 1) [PoolOp.ensure, PoolOp.chkout])
        { id := "s", recyclable := false }).available.length ≤ 1 ∧
    recycle (runPool none (poolInit 1) [PoolOp.ensure, PoolOp.chkout])
        { id := "s", recyclable := false } =
      runPool none (poolInit 1) [PoolOp.ensure, PoolOp.chkout] := by
  have h := recycle_queue_bound none 1 [PoolOp.ensure, PoolOp.chkout]
    { id := "s", recyclable := false }
  exact ⟨h.1, h.2.1 rfl⟩

/-!  Claim C6  -/

/-- C6: with target size 0 a checkout provisions a fresh snapshot whose
lease is non-recyclable; with a positive target it pops the warm queue's
front when non-empty (recyclable lease, no provisioning), and provisions
on demand when the queue is empty, also recyclable; a successful lease is
recyclable exactly when the target size is positive. -/
theorem checkout_spec (hook : Option (Nat → Except String String))
    (st : PoolState) :
    (st.size = 0 → ∀ id, create_snapshot hook st.supply = .ok id →
      checkout hook st =
        (.ok { id := id, recyclable := false },
         { st with supply := st.supply + 1 })) ∧
    (st.size ≠ 0 → ∀ id rest, st.available = id :: rest →
      checkout hook st =
        (.ok { id := id, recyclable := true },
         { st with available := rest })) ∧
    (st.size ≠ 0 → st.available = [] →
      ∀ id, create_snapshot hook st.supply = .ok id →
      checkout hook st =
        (.ok { id := id, recyclable := true },
         { st with supply := st.supply + 1 })) ∧
    (∀ l st2, checkout hook st = (.ok l, st2) →
      (l.recyclable = true ↔ st.size ≠ 0)) := by
  refine ⟨fun h0 id hcs => ?_, fun h0 id rest hav => ?_,
          fun h0 hav id hcs => ?_, fun l st2 hch => ?_⟩
  · unfold checkout
    rw [(show (st.size == 0) = true by simp [h0]), hcs]
    rfl
  · unfold checkout
    rw [(show (st.size == 0) = false by simp [h0]), hav]
    rfl
  · unfold checkout
    rw [(show (st.size == 0) = false by simp [h0]), hav, hcs]
    rfl
  · unfold checkout at hch
    by_cases h0 : st.size = 0
    · rw [(show (st.size == 0) = true by simp [h0])] at hch
      cases hcs : create_snapshot hook st.supply with
      | error e =>
        rw [hcs] at hch
        simp at hch
      | ok id =>
        rw [hcs] at hch
        rw [Prod.mk.injEq] at hch
        have hl : l = { id := id, recyclable := false } := by
          have := hch.1
          injection this with h2
          exact h2.symm
        rw [hl]
        simp [h0]
    · rw [(show (st.size == 0) = false by simp [h0])] at hch
      cases hav : st.available with
      | cons id rest =>
        rw [hav] at hch
        rw [Prod.mk.injEq] at hch
        have hl : l = { id := id, recyclable := true } := by
          have := hch.1
          injection this with h2
          exact h2.symm
        rw [hl]
        simp [h0]
      | nil =>
        rw [hav] at hch
        cases hcs : create_snapshot hook st.supply with
        | error e =>
          rw [hcs] at hch
          simp at hch
        | ok id =>
          rw [hcs] at hch
          rw [Prod.mk.injEq] at hch
          have hl : l = { id := id, recyclable := true } := by
            have := hch.1
            injection this with h2
            exact h2.symm
          rw [hl]
          simp [h0]

/-- C6 witness: a zero-target pool provisions a fresh non-recyclable
lease; a warm pool pops its queued snapshot as a recyclable lease with no
provisioning. -/
theorem checkout_spec_witness :
    checkout none { size := 0, available := [], supply := 4 } =
      (.ok { id := "snapshot-4", recyclable := false },
       { size := 0, available := [], supply := 5 }) ∧
    checkout none { size := 2, available := ["w"], supply := 3 } =
      (.ok { id := "w", recyclable := true },
       { size := 2, available := [], supply := 3 }) := by
  have h1 := checkout_spec none { size := 0, available := [], supply := 4 }
  have h2 := checkout_spec none { size := 2, available := ["w"], supply := 3 }
  exact ⟨h1.1 rfl "snapshot-4" (by decide), h2.2.1 (by decide) "w" [] rfl⟩

end CodexCloud
